import Mathlib

/-!
Shallow embedding of the calculator in `script.js` (digits, decimal point,
operator chaining, equals, clear, negate, percent, and the capped persisted
history), together with theorems checking the specification's claims.

Modelling conventions:
* JavaScript numbers are modelled exactly as rationals (`Rat`) plus a `nan`
  value; the observable behaviour claimed by the spec (division by zero,
  percent, negate, the `5 + 3 = 8` scenarios) is reproduced exactly by this
  model.
* `String(number)` is modelled by `ratToString`, which renders terminating
  decimal expansions the way JavaScript renders them (`"8"`, `"-5"`,
  `"0.05"`); for a non-terminating expansion it falls back to a fraction
  rendering (never reached in the verified scenarios, and dot-free either
  way, which is all the decimal-point invariant needs).
* The persistence store (`localStorage` restricted to the single key
  `calculatorHistory`) is modelled as `Option String`; `JSON.parse` is
  modelled by `parseHistory`, a parser for the persisted history format
  (a JSON array of objects with the fields `expression` and `result`,
  exactly what `JSON.stringify` writes in `saveHistory`), with `Except`
  errors standing for thrown exceptions.
* DOM rendering (`updateDisplay`, `renderHistory`) is an external
  collaborator per the spec and is not part of the state.
-/

set_option maxHeartbeats 1000000

namespace CalcModel

/-- The four arithmetic operator keys of the dispatch table
`performCalculation` (script.js lines 77-82). -/
inductive Op where
  | add
  | sub
  | mul
  | div
deriving DecidableEq

/-- Display text of an operator key, as interpolated into expression
template strings. -/
def opText : Op → String
  | .add => "+"
  | .sub => "-"
  | .mul => "*"
  | .div => "/"

/-- Rational addition written through `mkRat` so that it reduces inside the
kernel; `ratAdd_eq` below proves it is ordinary addition. -/
def ratAdd (a b : Rat) : Rat :=
  mkRat (a.num * b.den + b.num * a.den) (a.den * b.den)

/-- Rational subtraction written through `mkRat`; equals ordinary
subtraction by `ratSub_eq`. -/
def ratSub (a b : Rat) : Rat :=
  mkRat (a.num * b.den - b.num * a.den) (a.den * b.den)

/-- Rational multiplication written through `mkRat`; equals ordinary
multiplication by `ratMul_eq`. -/
def ratMul (a b : Rat) : Rat :=
  mkRat (a.num * b.num) (a.den * b.den)

/-- Rational division written through `Rat.divInt`; equals ordinary
division by `ratDiv_eq`. -/
def ratDiv (a b : Rat) : Rat :=
  Rat.divInt (a.num * b.den) (a.den * b.num)

/-- JavaScript numbers as this calculator uses them: an ordinary numeric
value (modelled exactly as a rational) or NaN (produced by `parseFloat` on a
non-numeric string such as "Error"). -/
inductive JsNum where
  | nan
  | fin (q : Rat)
deriving DecidableEq

/-- JavaScript addition on numbers; NaN propagates. -/
def JsNum.add : JsNum → JsNum → JsNum
  | fin a, fin b => fin (ratAdd a b)
  | _, _ => nan

/-- JavaScript subtraction on numbers; NaN propagates. -/
def JsNum.sub : JsNum → JsNum → JsNum
  | fin a, fin b => fin (ratSub a b)
  | _, _ => nan

/-- JavaScript multiplication on numbers; NaN propagates. -/
def JsNum.mul : JsNum → JsNum → JsNum
  | fin a, fin b => fin (ratMul a b)
  | _, _ => nan

/-- JavaScript division on numbers; NaN propagates. In `performCalculation`
this is only reached behind the `secondOperand !== 0` guard, and
`calculatePercentage` divides by the constant 100, so the zero-denominator
case never arises. -/
def JsNum.div : JsNum → JsNum → JsNum
  | fin a, fin b => fin (ratDiv a b)
  | _, _ => nan

/-- The test `value === 0` used (negated) as the divide guard: false for
NaN, true exactly for the number zero. -/
def jsEqZero : JsNum → Bool
  | .nan => false
  | .fin q => q == 0

/-- A JavaScript value flowing through the calculator: a string (such as
the initial `previousInput = ''` or the 'Error' marker) or a number. -/
inductive JsVal where
  | str (s : String)
  | num (v : JsNum)
deriving DecidableEq

/-- Decimal digit characters, used to render numbers. -/
def digitChar (n : Nat) : Char :=
  match n with
  | 0 => '0'
  | 1 => '1'
  | 2 => '2'
  | 3 => '3'
  | 4 => '4'
  | 5 => '5'
  | 6 => '6'
  | 7 => '7'
  | 8 => '8'
  | 9 => '9'
  | _ => '?'

/-- Most-significant-first decimal digit list of a natural number, with
explicit fuel (fuel `n + 1` suffices for `n`). -/
def natDigitsAux : Nat → Nat → List Char
  | 0, _ => []
  | fuel + 1, n =>
    if n < 10 then [digitChar n]
    else natDigitsAux fuel (n / 10) ++ [digitChar (n % 10)]

/-- Decimal rendering of a natural number. -/
def natToString (n : Nat) : String :=
  String.mk (natDigitsAux (n + 1) n)

/-- Model of JavaScript `String(number)` on the rationals this calculator
produces: integers render without a point, terminating decimal expansions
render as `intpart.fracpart` with no trailing zeros (`"0.05"`, `"12.5"`),
and a non-terminating expansion falls back to a `num/den` rendering (not
reached in the verified scenarios; dot-free, as the decimal-point
invariant requires). -/
def ratToString (q : Rat) : String :=
  let sign := if q.num < 0 then "-" else ""
  let n := q.num.natAbs
  let d := q.den
  if d = 1 then sign ++ natToString n
  else
    match (List.range 64).find? (fun k => 10 ^ k % d == 0) with
    | some k =>
      let scaled := n * 10 ^ k / d
      let digs0 := natDigitsAux (scaled + 1) scaled
      let digs := List.replicate (k + 1 - digs0.length) '0' ++ digs0
      sign ++ String.mk (digs.take (digs.length - k)) ++ "." ++
        String.mk (digs.drop (digs.length - k))
    | none => sign ++ natToString n ++ "/" ++ natToString d

/-- Model of `String(v)` for a calculator number. -/
def jsNumToString : JsNum → String
  | .nan => "NaN"
  | .fin q => ratToString q

/-- Model of `String(v)` / template interpolation for a calculator value. -/
def jsValToString : JsVal → String
  | .str s => s
  | .num v => jsNumToString v

/-- Whitespace test used when skipping leading whitespace in parsing. -/
def jsonWs (c : Char) : Bool :=
  c == ' ' || c == '\t' || c == '\n' || c == '\r'

/-- Numeric value of a list of decimal digit characters. -/
def digitsToNat (cs : List Char) : Nat :=
  cs.foldl (fun a c => 10 * a + (c.toNat - 48)) 0

/-- Model of JavaScript `parseFloat` on the strings this calculator feeds
it: optional sign, integer digits, optional fraction digits; NaN when no
digits are present (for example on "Error" or ""). Exponent notation is
not produced by `ratToString`, so it does not arise in the model. -/
def parseFloatStr (s : String) : JsNum :=
  let cs := s.data.dropWhile jsonWs
  let signAndRest :=
    match cs with
    | '-' :: rest => (true, rest)
    | '+' :: rest => (false, rest)
    | _ => (false, cs)
  let neg := signAndRest.1
  let cs1 := signAndRest.2
  let ip := cs1.takeWhile Char.isDigit
  let cs2 := cs1.dropWhile Char.isDigit
  let fp :=
    match cs2 with
    | '.' :: rest => rest.takeWhile Char.isDigit
    | _ => []
  if ip.isEmpty && fp.isEmpty then JsNum.nan
  else
    let q : Rat := ratAdd (digitsToNat ip : Rat) (mkRat (digitsToNat fp) (10 ^ fp.length))
    JsNum.fin (if neg then -q else q)

/-- Model of `parseFloat(v)` applied to a stored value: a number parses to
itself (JavaScript coerces it through its own string rendering), a string
goes through `parseFloatStr`. -/
def parseFloatVal : JsVal → JsNum
  | .num v => v
  | .str s => parseFloatStr s

/-- The operator dispatch table (script.js lines 77-82): division returns
the string 'Error' when the second operand is the number 0; every other
case returns the arithmetic result. Being a Lean function, it is
deterministic and side-effect-free by construction, as the JavaScript
arrow functions are. -/
def performCalculation (op : Op) (firstOperand secondOperand : JsNum) : JsVal :=
  match op with
  | .div =>
    if jsEqZero secondOperand then .str "Error"
    else .num (firstOperand.div secondOperand)
  | .mul => .num (firstOperand.mul secondOperand)
  | .add => .num (firstOperand.add secondOperand)
  | .sub => .num (firstOperand.sub secondOperand)

/-- A completed-calculation record, as pushed by `addToHistory`
(script.js line 119): the full expression string and the result rendered
as a string. Immutable after creation. -/
structure HistoryEntry where
  expression : String
  result : String
deriving DecidableEq

/-- The capped unshift of `addToHistory` (script.js lines 119-122): insert
the new entry at the front; if the log now holds more than 10 entries,
drop the last (oldest) one. -/
def pushCapped (e : HistoryEntry) (h : List HistoryEntry) : List HistoryEntry :=
  let h1 := e :: h
  if h1.length > 10 then h1.dropLast else h1

/-- Opening brace character (used instead of a brace literal in code). -/
def lbrace : Char := Char.ofNat 123

/-- Closing brace character. -/
def rbrace : Char := Char.ofNat 125

/-- JSON string escaping as `JSON.stringify` applies it to the strings this
calculator stores: backslash and double quote are escaped (control
characters never occur in the stored expressions and results). -/
def escapeJsonString (s : String) : String :=
  String.mk (s.data.foldr
    (fun c acc => if c == '"' || c == '\\' then '\\' :: c :: acc else c :: acc) [])

/-- Serialization of one history entry, in the field order
`JSON.stringify` emits for the object literal at script.js line 119. -/
def entryToJson (e : HistoryEntry) : String :=
  String.singleton lbrace ++ "\"expression\":\"" ++ escapeJsonString e.expression ++
    "\",\"result\":\"" ++ escapeJsonString e.result ++ "\"" ++ String.singleton rbrace

/-- Model of `JSON.stringify(history)` (script.js line 25). -/
def stringifyHistory (h : List HistoryEntry) : String :=
  "[" ++ String.intercalate "," (h.map entryToJson) ++ "]"

/-- The value `saveHistory` writes under the single persisted key
(script.js lines 24-26); the store is modelled as the content of that key. -/
def saveHistory (h : List HistoryEntry) : Option String :=
  some (stringifyHistory h)

/-- Skip JSON whitespace. -/
def skipWs (cs : List Char) : List Char :=
  cs.dropWhile jsonWs

/-- Expect one specific character. -/
def expectChar (c : Char) : List Char → Option (List Char)
  | [] => none
  | x :: rest => if x == c then some rest else none

/-- Expect a specific character sequence. -/
def expectChars : List Char → List Char → Option (List Char)
  | [], cs => some cs
  | p :: ps, cs =>
    match expectChar p cs with
    | some rest => expectChars ps rest
    | none => none

/-- Parse the body of a JSON string after its opening quote, honouring the
escape sequences `JSON.parse` accepts on this format; returns the decoded
characters and the remainder after the closing quote. -/
def parseStringBody : Nat → List Char → Option (List Char × List Char)
  | 0, _ => none
  | _, [] => none
  | fuel + 1, c :: rest =>
    if c == '"' then some ([], rest)
    else if c == '\\' then
      match rest with
      | [] => none
      | e :: rest2 =>
        let dec : Option Char :=
          if e == '"' then some '"'
          else if e == '\\' then some '\\'
          else if e == '/' then some '/'
          else if e == 'n' then some '\n'
          else if e == 't' then some '\t'
          else if e == 'r' then some '\r'
          else none
        match dec with
        | none => none
        | some ch =>
          match parseStringBody fuel rest2 with
          | some (body, rest3) => some (ch :: body, rest3)
          | none => none
    else
      match parseStringBody fuel rest with
      | some (body, rest3) => some (c :: body, rest3)
      | none => none

/-- Parse one serialized history entry: an object with the two string
fields `expression` then `result`, the exact shape `saveHistory` writes
(spec section 6 defines the persisted format as exactly this). -/
def parseEntry (fuel : Nat) (cs : List Char) : Option (HistoryEntry × List Char) :=
  match expectChar lbrace (skipWs cs) with
  | none => none
  | some cs1 =>
    match expectChars ('"' :: "expression".data ++ ['"']) (skipWs cs1) with
    | none => none
    | some cs2 =>
      match expectChar ':' (skipWs cs2) with
      | none => none
      | some cs3 =>
        match expectChar '"' (skipWs cs3) with
        | none => none
        | some cs4 =>
          match parseStringBody fuel cs4 with
          | none => none
          | some (expr, cs5) =>
            match expectChar ',' (skipWs cs5) with
            | none => none
            | some cs6 =>
              match expectChars ('"' :: "result".data ++ ['"']) (skipWs cs6) with
              | none => none
              | some cs7 =>
                match expectChar ':' (skipWs cs7) with
                | none => none
                | some cs8 =>
                  match expectChar '"' (skipWs cs8) with
                  | none => none
                  | some cs9 =>
                    match parseStringBody fuel cs9 with
                    | none => none
                    | some (res, cs10) =>
                      match expectChar rbrace (skipWs cs10) with
                      | none => none
                      | some cs11 =>
                        some (⟨String.mk expr, String.mk res⟩, cs11)

/-- Parse a nonempty comma-separated list of serialized history entries. -/
def parseEntries : Nat → List Char → Option (List HistoryEntry × List Char)
  | 0, _ => none
  | fuel + 1, cs =>
    match parseEntry fuel cs with
    | none => none
    | some (e, cs1) =>
      match skipWs cs1 with
      | ',' :: rest =>
        match parseEntries fuel rest with
        | some (es, cs2) => some (e :: es, cs2)
        | none => none
      | cs2 => some ([e], cs2)

/-- Model of `JSON.parse` restricted to the persisted history format (a
JSON array of `expression`/`result` objects, which is the only content
`saveHistory` ever writes); a returned `Except.error` stands for the
exception `JSON.parse` throws on malformed input. -/
def parseHistory (s : String) : Except String (List HistoryEntry) :=
  match skipWs s.data with
  | '[' :: rest =>
    match skipWs rest with
    | ']' :: rest2 =>
      if (skipWs rest2).isEmpty then .ok []
      else .error "JSON.parse: unexpected trailing input"
    | rest1 =>
      match parseEntries (s.length + 1) rest1 with
      | some (es, rest2) =>
        match skipWs rest2 with
        | ']' :: rest3 =>
          if (skipWs rest3).isEmpty then .ok es
          else .error "JSON.parse: unexpected trailing input"
        | _ => .error "JSON.parse: expected closing bracket"
      | none => .error "JSON.parse: malformed entry"
  | _ => .error "JSON.parse: expected array"

/-- Model of `loadHistory` (script.js lines 15-21): the module-level
`history` starts as the empty list; when the stored value is truthy (a
present, nonempty string) it is replaced by `JSON.parse(storedHistory)`.
There is no try/catch around the parse, so a parse failure propagates as a
thrown exception (`Except.error`). -/
def loadHistory (store : Option String) : Except String (List HistoryEntry) :=
  match store with
  | none => .ok []
  | some s => if s = "" then .ok [] else parseHistory s

/-- The mutable module-level state of script.js (lines 8-12) together with
the persisted-store content that `saveHistory` keeps in sync. The display
elements are external collaborators and carry no independent state. -/
structure CalcState where
  currentInput : String
  operator : Option Op
  previousInput : JsVal
  history : List HistoryEntry
  waitingForSecondOperand : Bool
  store : Option String
deriving DecidableEq

/-- The initial state (script.js lines 8-12) with an untouched store. -/
def initState : CalcState :=
  { currentInput := "0"
    operator := none
    previousInput := .str ""
    history := []
    waitingForSecondOperand := false
    store := none }

/-- Model of `addToHistory` (script.js lines 118-125): render the result to
a string, push the capped entry, and persist the new log. Rendering the
list is an external effect. -/
def addToHistory (expression : String) (result : JsVal) (s : CalcState) : CalcState :=
  let h1 := pushCapped { expression := expression, result := jsValToString result } s.history
  { s with history := h1, store := saveHistory h1 }

/-- The expression template of script.js lines 66 and 90. -/
def mkExpr (prev : JsVal) (op : Op) (cur : String) (res : JsVal) : String :=
  jsValToString prev ++ " " ++ opText op ++ " " ++ cur ++ " = " ++ jsValToString res

/-- Model of `appendNumber` (script.js lines 33-41). -/
def appendNumber (number : String) (s : CalcState) : CalcState :=
  if s.waitingForSecondOperand then
    { s with currentInput := number, waitingForSecondOperand := false }
  else if s.currentInput = "0" then { s with currentInput := number }
  else { s with currentInput := s.currentInput ++ number }

/-- Model of `appendDecimal` (script.js lines 43-51); `includes('.')` is
membership of the dot character in the entry. -/
def appendDecimal (s : CalcState) : CalcState :=
  if s.waitingForSecondOperand then
    { s with currentInput := "0.", waitingForSecondOperand := false }
  else if '.' ∈ s.currentInput.data then s
  else { s with currentInput := s.currentInput ++ "." }

/-- Model of `handleOperator` (script.js lines 53-75). -/
def handleOperator (nextOperator : Op) (s : CalcState) : CalcState :=
  let inputValue := parseFloatStr s.currentInput
  if s.operator.isSome && s.waitingForSecondOperand then
    { s with operator := some nextOperator }
  else
    let s1 :=
      if s.previousInput = .str "" then { s with previousInput := .num inputValue }
      else
        match s.operator with
        | some op =>
          let calculation := performCalculation op (parseFloatVal s.previousInput) inputValue
          let expression := mkExpr s.previousInput op s.currentInput calculation
          let s2 := addToHistory expression calculation s
          { s2 with currentInput := jsValToString calculation, previousInput := calculation }
        | none => s
    { s1 with waitingForSecondOperand := true, operator := some nextOperator }

/-- Model of `calculateResult` (script.js lines 84-98). -/
def calculateResult (s : CalcState) : CalcState :=
  match s.operator with
  | none => s
  | some op =>
    if s.waitingForSecondOperand then s
    else
      let inputValue := parseFloatStr s.currentInput
      let calculation := performCalculation op (parseFloatVal s.previousInput) inputValue
      let expression := mkExpr s.previousInput op s.currentInput calculation
      let s1 := addToHistory expression calculation s
      { s1 with currentInput := jsValToString calculation, operator := none,
                previousInput := .str "", waitingForSecondOperand := false }

/-- Model of `clearCalculator` (script.js lines 100-106). -/
def clearCalculator (s : CalcState) : CalcState :=
  { s with currentInput := "0", operator := none, previousInput := .str "",
           waitingForSecondOperand := false }

/-- Model of `toggleNegative` (script.js lines 108-111). -/
def toggleNegative (s : CalcState) : CalcState :=
  { s with currentInput := jsNumToString ((parseFloatStr s.currentInput).mul (.fin (-1))) }

/-- Model of `calculatePercentage` (script.js lines 113-116). -/
def calculatePercentage (s : CalcState) : CalcState :=
  { s with currentInput := jsNumToString ((parseFloatStr s.currentInput).div (.fin 100)) }

/-- Model of `clearAllHistory` (script.js lines 140-144). -/
def clearAllHistory (s : CalcState) : CalcState :=
  { s with history := [], store := saveHistory [] }

/-- Digit button text. -/
def digitStr (d : Fin 10) : String :=
  String.mk [digitChar d.val]

/-- The public user actions dispatched by the button listener
(script.js lines 146-177). -/
inductive Action where
  | digit (d : Fin 10)
  | decimalPoint
  | operatorPress (o : Op)
  | equalsPress
  | clearPress
  | negatePress
  | percentPress

/-- One dispatch step of the button listener. -/
def step (s : CalcState) (a : Action) : CalcState :=
  match a with
  | .digit d => appendNumber (digitStr d) s
  | .decimalPoint => appendDecimal s
  | .operatorPress o => handleOperator o s
  | .equalsPress => calculateResult s
  | .clearPress => clearCalculator s
  | .negatePress => toggleNegative s
  | .percentPress => calculatePercentage s

/-- Run a sequence of user actions from the initial state. -/
def runActions (as : List Action) : CalcState :=
  as.foldl step initState

/-- Run a sequence of digit presses from the initial state. -/
def runDigits (ds : List (Fin 10)) : CalcState :=
  ds.foldl (fun s d => appendNumber (digitStr d) s) initState

/-! Agreement of the executable rational operations with the standard
field operations on `Rat`. -/

theorem ratAdd_eq (a b : Rat) : ratAdd a b = a + b := by
  have ha : (a.den : Rat) ≠ 0 := Nat.cast_ne_zero.mpr a.den_nz
  have hb : (b.den : Rat) ≠ 0 := Nat.cast_ne_zero.mpr b.den_nz
  conv_rhs => rw [← Rat.num_div_den a, ← Rat.num_div_den b]
  rw [ratAdd, Rat.mkRat_eq_div, div_add_div _ _ ha hb]
  push_cast
  ring_nf

theorem ratSub_eq (a b : Rat) : ratSub a b = a - b := by
  have ha : (a.den : Rat) ≠ 0 := Nat.cast_ne_zero.mpr a.den_nz
  have hb : (b.den : Rat) ≠ 0 := Nat.cast_ne_zero.mpr b.den_nz
  conv_rhs => rw [← Rat.num_div_den a, ← Rat.num_div_den b]
  rw [ratSub, Rat.mkRat_eq_div, div_sub_div _ _ ha hb]
  push_cast
  ring_nf

theorem ratMul_eq (a b : Rat) : ratMul a b = a * b := by
  have ha : (a.den : Rat) ≠ 0 := Nat.cast_ne_zero.mpr a.den_nz
  have hb : (b.den : Rat) ≠ 0 := Nat.cast_ne_zero.mpr b.den_nz
  conv_rhs => rw [← Rat.num_div_den a, ← Rat.num_div_den b]
  rw [ratMul, Rat.mkRat_eq_div, div_mul_div_comm]
  push_cast
  ring_nf

theorem ratDiv_eq (a b : Rat) : ratDiv a b = a / b := by
  rcases eq_or_ne b 0 with hb0 | hb0
  · subst hb0
    rw [ratDiv]
    norm_num
  · have ha : (a.den : Rat) ≠ 0 := Nat.cast_ne_zero.mpr a.den_nz
    have hb : (b.den : Rat) ≠ 0 := Nat.cast_ne_zero.mpr b.den_nz
    have hbn : (b.num : Rat) ≠ 0 := by simpa using Rat.num_ne_zero.mpr hb0
    rw [ratDiv, Rat.divInt_eq_div]
    push_cast
    rw [div_eq_div_iff (mul_ne_zero ha hbn) hb0]
    have hA : (a.num : Rat) = a * a.den := (div_eq_iff ha).mp (Rat.num_div_den a)
    have hB : (b.num : Rat) = b * b.den := (div_eq_iff hb).mp (Rat.num_div_den b)
    rw [hA, hB]
    ring

/-- C2: for every numeric `x`, `evaluate(divide, x, 0)` returns the
distinguished 'Error' marker rather than a numeric result or a thrown
fault; for every pair `(a, b)` with `b` nonzero, `evaluate(divide, a, b)`
returns `a / b`; and each remaining operator returns exactly the
corresponding arithmetic result. Determinism and freedom from side effects
hold by construction: `performCalculation` is a pure function of its
arguments, as the dispatch table of arrow functions in script.js is. -/
theorem evaluate_div_zero_and_ops :
    (∀ x : JsNum, performCalculation Op.div x (JsNum.fin 0) = JsVal.str "Error") ∧
    (∀ a b : Rat, b ≠ 0 →
      performCalculation Op.div (JsNum.fin a) (JsNum.fin b) =
        JsVal.num (JsNum.fin (a / b))) ∧
    (∀ a b : Rat,
      performCalculation Op.add (JsNum.fin a) (JsNum.fin b) =
          JsVal.num (JsNum.fin (a + b)) ∧
        performCalculation Op.sub (JsNum.fin a) (JsNum.fin b) =
          JsVal.num (JsNum.fin (a - b)) ∧
        performCalculation Op.mul (JsNum.fin a) (JsNum.fin b) =
          JsVal.num (JsNum.fin (a * b))) := by
  refine ⟨fun x => by simp [performCalculation, jsEqZero], fun a b hb => ?_, fun a b => ?_⟩
  · simp [performCalculation, jsEqZero, hb, JsNum.div, ratDiv_eq]
  · simp [performCalculation, JsNum.add, JsNum.sub, JsNum.mul, ratAdd_eq, ratSub_eq, ratMul_eq]

/-- Witness for C2 at the concrete input `(1, 2)`. -/
theorem evaluate_div_zero_and_ops_witness :
    performCalculation Op.div (JsNum.fin 1) (JsNum.fin 2) = JsVal.num (JsNum.fin (1 / 2)) :=
  evaluate_div_zero_and_ops.2.1 1 2 (by norm_num)

/-- C10: `toggleNegative` and `calculatePercentage` modify only
`currentInput`; the selected operator, the pending operand, the
awaiting-operand flag, the history log and the persisted store are all
untouched by either action. -/
theorem negate_percent_frame (s : CalcState) :
    (toggleNegative s).operator = s.operator ∧
    (toggleNegative s).previousInput = s.previousInput ∧
    (toggleNegative s).history = s.history ∧
    (toggleNegative s).waitingForSecondOperand = s.waitingForSecondOperand ∧
    (toggleNegative s).store = s.store ∧
    (calculatePercentage s).operator = s.operator ∧
    (calculatePercentage s).previousInput = s.previousInput ∧
    (calculatePercentage s).history = s.history ∧
    (calculatePercentage s).waitingForSecondOperand = s.waitingForSecondOperand ∧
    (calculatePercentage s).store = s.store :=
  ⟨rfl, rfl, rfl, rfl, rfl, rfl, rfl, rfl, rfl, rfl⟩

/-- C8: from the initial state, pressing 5 then percent leaves
`currentInput = "0.05"` and pressing 5 then negate leaves
`currentInput = "-5"`; in general percent rewrites the entry to the string
of its numeric value divided by 100, and negate to the string of its
numeric value times -1. -/
theorem percent_negate_behaviour :
    (runActions [.digit 5, .percentPress]).currentInput = "0.05" ∧
    (runActions [.digit 5, .negatePress]).currentInput = "-5" ∧
    (∀ (s : CalcState) (q : Rat), parseFloatStr s.currentInput = JsNum.fin q →
      (calculatePercentage s).currentInput = ratToString (q / 100)) ∧
    (∀ (s : CalcState) (q : Rat), parseFloatStr s.currentInput = JsNum.fin q →
      (toggleNegative s).currentInput = ratToString (q * (-1))) := by
  refine ⟨by decide, by decide, fun s q hq => ?_, fun s q hq => ?_⟩
  · simp [calculatePercentage, hq, JsNum.div, jsNumToString, ratDiv_eq]
  · simp [toggleNegative, hq, JsNum.mul, jsNumToString, ratMul_eq]

/-- Witness for C8 at the concrete state reached by pressing 5. -/
theorem percent_negate_behaviour_witness :
    (calculatePercentage (runActions [.digit 5])).currentInput = ratToString (5 / 100) ∧
    (toggleNegative (runActions [.digit 5])).currentInput = ratToString (5 * (-1)) :=
  ⟨percent_negate_behaviour.2.2.1 (runActions [.digit 5]) 5 (by decide),
   percent_negate_behaviour.2.2.2 (runActions [.digit 5]) 5 (by decide)⟩

/-- C9: for every calculator state (hence every history-log state),
`clearAllHistory` persists the empty log, and `loadHistory` from the store
it leaves behind yields the empty history log. -/
theorem clearAll_then_load_empty (s : CalcState) :
    (clearAllHistory s).history = [] ∧
    loadHistory (clearAllHistory s).store = .ok [] :=
  ⟨rfl, rfl⟩

/-- C1 counterexample: on the corrupt (unparsable) persisted content
"corrupt", `loadHistory` does not initialize the log to empty but throws:
the `JSON.parse` call at script.js line 18 has no try/catch, so the claim
that `load()` never fails is false. -/
theorem loadHistory_corrupt_throws :
    loadHistory (some "corrupt") = .error "JSON.parse: expected array" := rfl

/-- C1 amended: `load()` initializes the in-memory history log to the
empty log when the persisted key is absent or holds the empty string, and
yields the parsed log on well-formed content, but on content that fails to
parse the `JSON.parse` exception propagates out of `load()` instead of
being recovered into an empty log. -/
theorem loadHistory_amended :
    loadHistory none = .ok [] ∧
    loadHistory (some "") = .ok [] ∧
    (∀ (s : String) (e : String), s ≠ "" → parseHistory s = .error e →
      loadHistory (some s) = .error e) ∧
    loadHistory (saveHistory [⟨"5 + 3 = 8", "8"⟩]) = .ok [⟨"5 + 3 = 8", "8"⟩] := by
  refine ⟨rfl, rfl, fun s e hs hp => ?_, rfl⟩
  rw [loadHistory, if_neg hs]
  exact hp

/-- One capped append keeps the log within the 10-entry bound. -/
theorem pushCapped_length_le (e : HistoryEntry) (h : List HistoryEntry)
    (hle : h.length ≤ 10) : (pushCapped e h).length ≤ 10 := by
  rw [pushCapped]
  split
  · simpa using hle
  · rename_i hng
    simp only [not_lt, List.length_cons] at hng
    simpa using hng

/-- Every capped append places the new entry at the front. -/
theorem pushCapped_head (e : HistoryEntry) (h : List HistoryEntry) :
    (pushCapped e h).head? = some e := by
  rw [pushCapped]
  split
  · rename_i hgt
    cases h with
    | nil => simp at hgt
    | cons x xs => simp
  · rfl

/-- When the log is full, a capped append evicts exactly the oldest (tail)
entry. -/
theorem pushCapped_evicts (e : HistoryEntry) (h : List HistoryEntry) (hlen : h.length = 10) :
    pushCapped e h = e :: h.dropLast := by
  rw [pushCapped]
  rw [if_pos (by simp [hlen])]
  cases h with
  | nil => simp at hlen
  | cons x xs => simp

/-- Any sequence of capped appends keeps the log within the bound. -/
theorem foldl_pushCapped_length (es : List HistoryEntry) :
    ∀ h0 : List HistoryEntry, h0.length ≤ 10 →
      (es.foldl (fun h e => pushCapped e h) h0).length ≤ 10 := by
  induction es with
  | nil => intro h0 hh; simpa using hh
  | cons e es ih => intro h0 hh; exact ih _ (pushCapped_length_le e h0 hh)

/-- C3: the history log never exceeds 10 entries under any sequence of
appends (from any log already within the bound, in particular from the
empty startup log); each append inserts at the front and, when the log is
full, evicts the oldest (tail) entry; after 11 appends the log holds
exactly the 2nd through 11th appended entries, newest first, so the first
appended entry is gone (provided it was not re-appended later) and the
11th is at the front. -/
theorem history_cap_and_eviction :
    (∀ (es h0 : List HistoryEntry), h0.length ≤ 10 →
      (es.foldl (fun h e => pushCapped e h) h0).length ≤ 10) ∧
    (∀ (e : HistoryEntry) (h : List HistoryEntry), (pushCapped e h).head? = some e) ∧
    (∀ (e : HistoryEntry) (h : List HistoryEntry), h.length = 10 →
      pushCapped e h = e :: h.dropLast) ∧
    (∀ a1 a2 a3 a4 a5 a6 a7 a8 a9 a10 a11 : HistoryEntry,
      [a1, a2, a3, a4, a5, a6, a7, a8, a9, a10, a11].foldl (fun h e => pushCapped e h) [] =
          [a11, a10, a9, a8, a7, a6, a5, a4, a3, a2] ∧
        (a1 ∉ [a2, a3, a4, a5, a6, a7, a8, a9, a10, a11] →
          a1 ∉ [a11, a10, a9, a8, a7, a6, a5, a4, a3, a2])) := by
  refine ⟨foldl_pushCapped_length, pushCapped_head, pushCapped_evicts, ?_⟩
  intro a1 a2 a3 a4 a5 a6 a7 a8 a9 a10 a11
  refine ⟨rfl, fun hmem => ?_⟩
  simp only [List.mem_cons, List.not_mem_nil, or_false] at hmem ⊢
  tauto

/-- Witness for C3 at concrete entries: eleven distinct one-character
expressions. -/
theorem history_cap_and_eviction_witness :
    ([(⟨"a", "1"⟩ : HistoryEntry)].foldl (fun h e => pushCapped e h) []).length ≤ 10 ∧
    pushCapped ⟨"k", "11"⟩
        [⟨"j", "10"⟩, ⟨"i", "9"⟩, ⟨"h", "8"⟩, ⟨"g", "7"⟩, ⟨"f", "6"⟩,
         ⟨"e", "5"⟩, ⟨"d", "4"⟩, ⟨"c", "3"⟩, ⟨"b", "2"⟩, ⟨"a", "1"⟩] =
      ⟨"k", "11"⟩ ::
        List.dropLast
          [⟨"j", "10"⟩, ⟨"i", "9"⟩, ⟨"h", "8"⟩, ⟨"g", "7"⟩, ⟨"f", "6"⟩,
           ⟨"e", "5"⟩, ⟨"d", "4"⟩, ⟨"c", "3"⟩, ⟨"b", "2"⟩, ⟨"a", "1"⟩] ∧
    (⟨"a", "1"⟩ : HistoryEntry) ∉
      [(⟨"k", "11"⟩ : HistoryEntry), ⟨"j", "10"⟩, ⟨"i", "9"⟩, ⟨"h", "8"⟩, ⟨"g", "7"⟩,
       ⟨"f", "6"⟩, ⟨"e", "5"⟩, ⟨"d", "4"⟩, ⟨"c", "3"⟩, ⟨"b", "2"⟩] :=
  ⟨history_cap_and_eviction.1 [⟨"a", "1"⟩] [] (by decide),
   history_cap_and_eviction.2.2.1 ⟨"k", "11"⟩ _ (by decide),
   (history_cap_and_eviction.2.2.2 ⟨"a", "1"⟩ ⟨"b", "2"⟩ ⟨"c", "3"⟩ ⟨"d", "4"⟩ ⟨"e", "5"⟩
      ⟨"f", "6"⟩ ⟨"g", "7"⟩ ⟨"h", "8"⟩ ⟨"i", "9"⟩ ⟨"j", "10"⟩ ⟨"k", "11"⟩).2 (by decide)⟩

/-- When an operator is already selected and the engine is still awaiting
the second operand, an operator press only swaps the selected operator
(the early return at script.js lines 56-60). -/
theorem handleOperator_replace (s : CalcState) (o : Op)
    (h1 : s.operator.isSome = true) (h2 : s.waitingForSecondOperand = true) :
    handleOperator o s = { s with operator := some o } := by
  rw [handleOperator]
  simp [h1, h2]

/-- C4: when an operator is already selected and `awaitingOperand` holds,
`operator(op)` only replaces the selected operator: the resulting state is
the old state with just that field changed, so no evaluation happens, no
history entry is appended, and `currentEntry`, `pendingOperand` and the
flag are untouched; consequently pressing 5, +, +, 3, = ends in exactly
the same state (result, history and store included) as pressing
5, +, 3, =. -/
theorem double_operator_replaces :
    (∀ (s : CalcState) (o : Op), s.operator.isSome = true →
      s.waitingForSecondOperand = true → handleOperator o s = { s with operator := some o }) ∧
    runActions [.digit 5, .operatorPress .add, .operatorPress .add, .digit 3, .equalsPress] =
      runActions [.digit 5, .operatorPress .add, .digit 3, .equalsPress] :=
  ⟨handleOperator_replace, by decide⟩

/-- Witness for C4 at the concrete state reached by pressing 5 then +. -/
theorem double_operator_replaces_witness :
    handleOperator Op.mul (runActions [.digit 5, .operatorPress .add]) =
      { runActions [.digit 5, .operatorPress .add] with operator := some Op.mul } :=
  double_operator_replaces.1 _ Op.mul (by decide) (by decide)

/-- equals() is a no-op when no operator is selected
(script.js line 85, first disjunct). -/
theorem calculateResult_noop_of_no_operator (s : CalcState) (h : s.operator = none) :
    calculateResult s = s := by
  rw [calculateResult, h]

/-- equals() is a no-op while still awaiting the second operand
(script.js line 85, second disjunct). -/
theorem calculateResult_noop_of_waiting (s : CalcState) (h : s.waitingForSecondOperand = true) :
    calculateResult s = s := by
  rw [calculateResult]
  cases hop : s.operator with
  | none => rfl
  | some op => simp [h]

/-- The effective branch of equals(): evaluate, append to history, show
the result, and fully reset the chain state. -/
theorem calculateResult_go (s : CalcState) (op : Op) (h1 : s.operator = some op)
    (h2 : s.waitingForSecondOperand = false) :
    calculateResult s =
      (let calculation :=
        performCalculation op (parseFloatVal s.previousInput) (parseFloatStr s.currentInput)
       let expression := mkExpr s.previousInput op s.currentInput calculation
       let newHistory := pushCapped ⟨expression, jsValToString calculation⟩ s.history
       { currentInput := jsValToString calculation, operator := none,
         previousInput := .str "", history := newHistory,
         waitingForSecondOperand := false, store := saveHistory newHistory }) := by
  obtain ⟨ci, op0, pi, hist, w, st⟩ := s
  simp only at h1 h2
  subst h1 h2
  rw [calculateResult]
  simp [addToHistory]

/-- C5: equals() leaves the state unchanged whenever no operator is
selected or the engine is still awaiting the second operand; otherwise it
evaluates (selectedOperator, pendingOperand, currentEntry-as-number),
appends the entry whose expression is
"pendingOperand selectedOperator currentEntry = result" and whose result
is the rendered result, sets currentEntry to the result, and resets the
operator to unset, the pending operand to unset ('' in the source) and
the awaiting flag to false; pressing 5, +, 3, = leaves
currentEntry = "8" with front history entry { "5 + 3 = 8", "8" }. -/
theorem equals_spec :
    (∀ s : CalcState, s.operator = none → calculateResult s = s) ∧
    (∀ s : CalcState, s.waitingForSecondOperand = true → calculateResult s = s) ∧
    (∀ (s : CalcState) (op : Op), s.operator = some op → s.waitingForSecondOperand = false →
      calculateResult s =
        (let calculation :=
          performCalculation op (parseFloatVal s.previousInput) (parseFloatStr s.currentInput)
         let expression := mkExpr s.previousInput op s.currentInput calculation
         let newHistory := pushCapped ⟨expression, jsValToString calculation⟩ s.history
         { currentInput := jsValToString calculation, operator := none,
           previousInput := .str "", history := newHistory,
           waitingForSecondOperand := false, store := saveHistory newHistory })) ∧
    (runActions [.digit 5, .operatorPress .add, .digit 3, .equalsPress]).currentInput = "8" ∧
    (runActions [.digit 5, .operatorPress .add, .digit 3, .equalsPress]).history =
      [⟨"5 + 3 = 8", "8"⟩] :=
  ⟨calculateResult_noop_of_no_operator, calculateResult_noop_of_waiting,
   calculateResult_go, by decide, by decide⟩

/-- Witness for C5: the no-op case at the initial state and the effective
case at the concrete state reached after 5, +, 3. -/
theorem equals_spec_witness :
    calculateResult initState = initState ∧
    calculateResult
        { initState with operator := some Op.add,
                         previousInput := JsVal.num (JsNum.fin 5), currentInput := "3" } =
      { currentInput := "8", operator := none, previousInput := JsVal.str "",
        history := [⟨"5 + 3 = 8", "8"⟩], waitingForSecondOperand := false,
        store := saveHistory [⟨"5 + 3 = 8", "8"⟩] } :=
  ⟨equals_spec.1 initState rfl,
   (equals_spec.2.2.1
      { initState with operator := some Op.add,
                       previousInput := JsVal.num (JsNum.fin 5), currentInput := "3" }
      Op.add rfl rfl).trans (by decide)⟩

/-- Witness for C1's amended claim at the concrete corrupt content. -/
theorem loadHistory_amended_witness :
    loadHistory (some "notjson") = .error "JSON.parse: expected array" :=
  loadHistory_amended.2.2.1 "notjson" "JSON.parse: expected array" (by decide) rfl

end CalcModel

namespace CalcModel

def dotCount (s : String) : Nat := s.data.count '.'

theorem dotCount_append (s t : String) : dotCount (s ++ t) = dotCount s + dotCount t := by
  simp [dotCount, String.data_append, List.count_append]

theorem dotCount_mk (l : List Char) : dotCount (String.mk l) = l.count '.' := rfl

theorem digitChar_ne_dot (n : Nat) : digitChar n ≠ '.' := by
  unfold digitChar
  split <;> decide

theorem natDigitsAux_no_dot (fuel : Nat) : ∀ n, '.' ∉ natDigitsAux fuel n := by
  induction fuel with
  | zero => intro n; simp [natDigitsAux]
  | succ fuel ih =>
    intro n
    rw [natDigitsAux]
    split
    · simp only [List.mem_singleton]
      exact fun h => digitChar_ne_dot _ h.symm
    · intro hmem
      rcases List.mem_append.mp hmem with h | h
      · exact ih _ h
      · exact digitChar_ne_dot _ (List.mem_singleton.mp h).symm

theorem dotCount_natToString (n : Nat) : dotCount (natToString n) = 0 := by
  rw [natToString, dotCount_mk]
  exact List.count_eq_zero.mpr (natDigitsAux_no_dot _ n)

theorem dotCount_sign (q : Rat) : dotCount (if q.num < 0 then "-" else "") = 0 := by
  split <;> rfl

theorem padded_no_dot (m fuel n : Nat) :
    '.' ∉ List.replicate m '0' ++ natDigitsAux fuel n := by
  intro hmem
  rcases List.mem_append.mp hmem with h | h
  · exact absurd (List.eq_of_mem_replicate h) (by decide)
  · exact natDigitsAux_no_dot fuel n h

theorem dotCount_ratToString (q : Rat) : dotCount (ratToString q) ≤ 1 := by
  rw [ratToString]
  split
  · rw [dotCount_append, dotCount_sign, dotCount_natToString]
    norm_num
  · split
    · rename_i k hk
      rw [dotCount_append, dotCount_append, dotCount_append, dotCount_sign]
      simp only [dotCount_mk]
      rw [List.count_eq_zero.mpr (fun h => padded_no_dot _ _ _ (List.mem_of_mem_take h)),
        List.count_eq_zero.mpr (fun h => padded_no_dot _ _ _ (List.mem_of_mem_drop h))]
      decide
    · rw [dotCount_append, dotCount_append, dotCount_append, dotCount_sign,
        dotCount_natToString, dotCount_natToString]
      decide

theorem dotCount_jsNumToString (v : JsNum) : dotCount (jsNumToString v) ≤ 1 := by
  cases v with
  | nan => decide
  | fin q => exact dotCount_ratToString q

theorem dotCount_performCalculation (op : Op) (a b : JsNum) :
    dotCount (jsValToString (performCalculation op a b)) ≤ 1 := by
  cases op with
  | div =>
    rw [performCalculation]
    split
    · decide
    · exact dotCount_jsNumToString _
  | mul => exact dotCount_jsNumToString _
  | add => exact dotCount_jsNumToString _
  | sub => exact dotCount_jsNumToString _


theorem dotCount_digitStr (d : Fin 10) : dotCount (digitStr d) = 0 := by
  rw [digitStr, dotCount_mk]
  exact List.count_eq_zero.mpr (fun h => digitChar_ne_dot _ (List.mem_singleton.mp h).symm)

theorem appendNumber_dot (number : String) (s : CalcState)
    (hn : dotCount number = 0) (h : dotCount s.currentInput ≤ 1) :
    dotCount (appendNumber number s).currentInput ≤ 1 := by
  rw [appendNumber]
  split
  · simpa using hn.le.trans (by norm_num)
  · split
    · simpa using hn.le.trans (by norm_num)
    · simpa [dotCount_append, hn] using h

theorem appendDecimal_dot (s : CalcState) (h : dotCount s.currentInput ≤ 1) :
    dotCount (appendDecimal s).currentInput ≤ 1 := by
  rw [appendDecimal]
  split
  · show dotCount "0." ≤ 1
    decide
  · split
    · simpa using h
    · rename_i hw hmem
      have h0 : dotCount s.currentInput = 0 := List.count_eq_zero.mpr hmem
      simp [dotCount_append, h0]
      decide

theorem handleOperator_dot (o : Op) (s : CalcState) (h : dotCount s.currentInput ≤ 1) :
    dotCount (handleOperator o s).currentInput ≤ 1 := by
  rw [handleOperator]
  split
  · simpa using h
  · dsimp only
    split
    · simpa using h
    · split
      · simpa using dotCount_performCalculation _ _ _
      · simpa using h

theorem calculateResult_dot (s : CalcState) (h : dotCount s.currentInput ≤ 1) :
    dotCount (calculateResult s).currentInput ≤ 1 := by
  rw [calculateResult]
  split
  · exact h
  · split
    · exact h
    · simpa using dotCount_performCalculation _ _ _

theorem step_dot (s : CalcState) (a : Action) (h : dotCount s.currentInput ≤ 1) :
    dotCount (step s a).currentInput ≤ 1 := by
  cases a with
  | digit d => exact appendNumber_dot _ s (dotCount_digitStr d) h
  | decimalPoint => exact appendDecimal_dot s h
  | operatorPress o => exact handleOperator_dot o s h
  | equalsPress => exact calculateResult_dot s h
  | clearPress => exact show dotCount "0" ≤ 1 by decide
  | negatePress => exact dotCount_jsNumToString _
  | percentPress => exact dotCount_jsNumToString _

theorem foldl_step_dot (as : List Action) :
    ∀ s : CalcState, dotCount s.currentInput ≤ 1 →
      dotCount (as.foldl step s).currentInput ≤ 1 := by
  induction as with
  | nil => intro s h; simpa using h
  | cons a as ih => intro s h; exact ih _ (step_dot s a h)

/-- C6 counterexample: at the reachable state obtained by pressing
., 5, + the entry is "0.5" (it contains a decimal point), yet
`decimalPoint()` is not a no-op there: because `awaitingOperand` is set,
it resets the entry to "0." and clears the flag
(script.js lines 44-46). -/
theorem decimal_noop_counterexample :
    '.' ∈ (runActions [.decimalPoint, .digit 5, .operatorPress .add]).currentInput.data ∧
    appendDecimal (runActions [.decimalPoint, .digit 5, .operatorPress .add]) ≠
      runActions [.decimalPoint, .digit 5, .operatorPress .add] := by
  refine ⟨by decide, by decide⟩

/-- C6 amended: every reachable CalculatorState has at most one decimal
point in `currentEntry`, and `decimalPoint()` is a no-op when
`awaitingOperand` is false and `currentEntry` already contains a decimal
point (when `awaitingOperand` is true it instead resets the entry to
"0." regardless of its content). -/
theorem decimal_invariant_amended :
    (∀ as : List Action, dotCount (runActions as).currentInput ≤ 1) ∧
    (∀ s : CalcState, s.waitingForSecondOperand = false →
      '.' ∈ s.currentInput.data → appendDecimal s = s) := by
  constructor
  · intro as
    exact foldl_step_dot as initState (by decide)
  · intro s hw hmem
    rw [appendDecimal]
    simp [hw, hmem]

/-- Witness for C6's amended claim at a concrete state that already holds
a decimal point. -/
theorem decimal_invariant_amended_witness :
    appendDecimal { initState with currentInput := "0.5" } =
      { initState with currentInput := "0.5" } :=
  decimal_invariant_amended.2 { initState with currentInput := "0.5" } rfl (by decide)


/-- Modelled from the spec's words (section 8, first testable property):
the literal concatenation of the pressed digits with leading zero digits
elided once a nonzero digit starts; when only zeros (or nothing) have been
pressed, nothing nonzero ever starts and the entry is the remaining "0". -/
def specDigitChars (ds : List (Fin 10)) : List Char :=
  let t := (ds.map (fun d => digitChar d.val)).dropWhile (fun c => c == '0')
  if t = [] then ['0'] else t

/-- String form of `specDigitChars`. -/
def specDigitConcat (ds : List (Fin 10)) : String :=
  String.mk (specDigitChars ds)

theorem specDigitChars_ne_singleton_zero (ds : List (Fin 10)) :
    (ds.map (fun d => digitChar d.val)).dropWhile (fun c => c == '0') ≠ ['0'] := by
  intro heq
  have hh := List.head?_dropWhile_not (fun c => c == '0') (ds.map (fun d => digitChar d.val))
  rw [heq] at hh
  simp at hh

theorem specDigitChars_append (ds : List (Fin 10)) (d : Fin 10) :
    specDigitChars (ds ++ [d]) =
      if specDigitChars ds = ['0'] then [digitChar d.val]
      else specDigitChars ds ++ [digitChar d.val] := by
  rw [specDigitChars, specDigitChars]
  simp only [List.map_append, List.map_cons, List.map_nil]
  rw [List.dropWhile_append]
  by_cases ht : (ds.map (fun d => digitChar d.val)).dropWhile (fun c => c == '0') = []
  · simp only [ht, List.isEmpty_nil, if_true]
    by_cases hd : d = 0
    · subst hd
      decide
    · have hdc : (digitChar d.val == '0') = false := by
        fin_cases d <;> first | (exact absurd rfl hd) | decide
      simp [hdc]
  · have hne := specDigitChars_ne_singleton_zero ds
    simp only [List.isEmpty_iff, ht, if_false, if_neg ht, if_neg hne]
    rw [if_neg (by simp)]


theorem string_mk_append (a b : List Char) : String.mk a ++ String.mk b = String.mk (a ++ b) := rfl

theorem zero_lit : ("0" : String) = String.mk ['0'] := rfl

theorem runDigits_eq (ds : List (Fin 10)) :
    (runDigits ds).currentInput = specDigitConcat ds ∧
    (runDigits ds).waitingForSecondOperand = false := by
  induction ds using List.reverseRecOn with
  | nil => exact ⟨rfl, rfl⟩
  | append_singleton ds d ih =>
    obtain ⟨h1, h2⟩ := ih
    rw [runDigits] at h1 h2 ⊢
    rw [List.foldl_append]
    simp only [List.foldl_cons, List.foldl_nil]
    rw [appendNumber, if_neg (by simp [h2])]
    constructor
    · rw [specDigitConcat, specDigitChars_append]
      by_cases hz : specDigitChars ds = ['0']
      · rw [if_pos (show _ = "0" by rw [h1, specDigitConcat, hz]), if_pos hz]
        rfl
      · rw [if_neg fun hc => hz (by simpa using congrArg String.data (h1.symm.trans hc)),
          if_neg hz]
        show _ ++ digitStr d = _
        rw [h1, specDigitConcat, digitStr, string_mk_append]
    · split <;> exact h2

/-- C7 counterexample: pressing 0 twice leaves `currentEntry = "0"`, but
the literal concatenation of the pressed digits is "00", and since no
nonzero digit ever starts, no leading "0" is elided; the claim as stated
therefore fails on the all-zero sequence (the code collapses repeated
zeros into a single "0"). -/
theorem digit_concat_counterexample :
    (runDigits [0, 0]).currentInput = "0" ∧
    String.mk (([0, 0] : List (Fin 10)).map (fun d => digitChar d.val)) = "00" ∧
    ("0" : String) ≠ "00" :=
  ⟨by decide, by decide, by decide⟩

/-- C7 amended: after any sequence of digit presses from the initial
state, `currentEntry` equals the literal concatenation of the pressed
digits with the leading zero digits elided once a nonzero digit starts,
where a sequence consisting only of zeros (or the empty sequence) leaves
the entry "0". -/
theorem digit_concat_amended (ds : List (Fin 10)) :
    (runDigits ds).currentInput = specDigitConcat ds :=
  (runDigits_eq ds).1

end CalcModel
